import Mathlib

/-!
Verification development for the go4me-web domain-ownership-verification API.

The embedding below follows `pages/api/domain-verification.ts` (the Next.js
handler) and `lib/domain-ownership-verification.ts` (the client-side helpers).
JavaScript `Map`/`Set` state is modelled as association lists / lists with the
same insertion-order semantics; JS numbers holding millisecond timestamps are
modelled as `Int`; JS truthiness of a string is emptiness, of a number is
being zero.  The external Chia WASM SDK (address derivation and BLS pairing
verification) is not part of the repository, so it is a parameter: a structure
of opaque functions.
-/

/-- Millisecond TTL for consumed nonces: `5 * 60 * 1000` in the source. -/
def NONCE_EXPIRY_TIME : Int := 5 * 60 * 1000

/-- Maximum age accepted by the freshness gate: `2 * 60 * 1000` in the source. -/
def maxAge : Int := 2 * 60 * 1000

/-- Characters kept by the domain sanitizer, regex class `[a-zA-Z0-9_-]`. -/
def isDomainChar (c : Char) : Bool :=
  ('a' ≤ c && c ≤ 'z') || ('A' ≤ c && c ≤ 'Z') || ('0' ≤ c && c ≤ '9')
    || c == '_' || c == '-'

/-- Regex class `[a-z0-9]` used for the body of a Chia address. -/
def isAddrBodyChar (c : Char) : Bool :=
  ('a' ≤ c && c ≤ 'z') || ('0' ≤ c && c ≤ '9')

/-- Regex class `[0-9a-fA-F]`. -/
def isHexChar (c : Char) : Bool :=
  ('0' ≤ c && c ≤ '9') || ('a' ≤ c && c ≤ 'f') || ('A' ≤ c && c ≤ 'F')

/-- `signature.replace(/^0x/, '')`: drop one leading `0x` if present. -/
def strip0x (s : String) : String :=
  match s.data with
  | '0' :: 'x' :: rest => String.mk rest
  | _ => s

/-- `/^[0-9a-fA-F]{n}$/.test s` for a fixed length `n`. -/
def isHexOfLength (n : Nat) (s : String) : Bool :=
  s.length == n && s.data.all isHexChar

/-- `isValidChiaAddress`: regex `^xch1[a-z0-9]{58}$` (both in the API handler
and in the client library). -/
def isValidChiaAddress (address : String) : Bool :=
  match address.data with
  | 'x' :: 'c' :: 'h' :: '1' :: rest => rest.length == 58 && rest.all isAddrBodyChar
  | _ => false

/-- Result of `sanitizeDomainName`: `{valid:false,error}` or `{valid:true,sanitized}`. -/
inductive SanitizeResult where
  | invalid (error : String)
  | valid (sanitized : String)
deriving Repr, DecidableEq

/-- `sanitizeDomainName` from the API handler: strip to `[a-zA-Z0-9_-]`,
then require length 1–100 and the (always-true after stripping) charset test. -/
def sanitizeDomainName (domain : String) : SanitizeResult :=
  if domain = "" then
    .invalid "Domain must be a non-empty string"
  else
    let sanitized := String.mk (domain.data.filter isDomainChar)
    if sanitized.length = 0 then .invalid "Domain contains no valid characters"
    else if sanitized.length > 100 then .invalid "Domain name too long"
    else if !(sanitized.length > 0 && sanitized.data.all isDomainChar) then
      .invalid "Domain contains invalid characters"
    else .valid sanitized

/-- Server-side `createDomainOwnershipMessage` (API handler, line 157). -/
def createDomainOwnershipMessage (domain : String) (timestamp : Int) (nonce : String) : String :=
  "Verify ownership of domain " ++ domain ++ " at " ++ toString timestamp
    ++ " with nonce " ++ nonce

namespace ClientLib

/-- Client-side `createDomainOwnershipMessage`
(`lib/domain-ownership-verification.ts`, line 19). -/
def createDomainOwnershipMessage (domain : String) (timestamp : Int) (nonce : String) : String :=
  "Verify ownership of domain " ++ domain ++ " at " ++ toString timestamp
    ++ " with nonce " ++ nonce

end ClientLib

/-! ### JS `Map` / `Set` semantics on association lists -/

/-- `Map.get k`: the value stored under `k`, if any. -/
def mapLookup (m : List (String × α)) (k : String) : Option α :=
  match m with
  | [] => none
  | p :: t => if p.1 = k then some p.2 else mapLookup t k

/-- `Map.set k v`: replace in place if the key exists, else append. -/
def mapSet (m : List (String × α)) (k : String) (v : α) : List (String × α) :=
  if (mapLookup m k).isSome then
    m.map (fun q => if q.1 = k then (k, v) else q)
  else m ++ [(k, v)]

/-- `Map.delete k`. -/
def mapDelete (m : List (String × α)) (k : String) : List (String × α) :=
  m.filter (fun p => p.1 ≠ k)

/-- `Set.add x`: no-op if the element is present, else append. -/
def setAdd (s : List String) (x : String) : List String :=
  if x ∈ s then s else s ++ [x]

/-- `Set.delete x`. -/
def setDelete (s : List String) (x : String) : List String :=
  s.filter (· ≠ x)

/-! ### Data model -/

/-- The record stored in `verificationStorage` (API handler, lines 194–203 and
359–368). -/
structure VerificationRecord where
  domain : String
  address : String
  verified : Bool
  verifiedAt : Int
  signature : String
  publicKey : String
  message : String
  nonce : String
deriving Repr, DecidableEq

/-- The `VerificationRequest` body of `POST /api/domain-verification`. -/
structure VerificationRequest where
  domain : String
  expectedAddress : String
  message : String
  signature : String
  publicKey : String
  timestamp : Int
  signingAddress : String
  nonce : String
deriving Repr, DecidableEq

/-- The module-level mutable state of the handler: `verificationStorage`,
`usedNonces`, `nonceTimestamps`. -/
structure ServerState where
  verificationStorage : List (String × VerificationRecord)
  usedNonces : List String
  nonceTimestamps : List (String × Int)
deriving Repr, DecidableEq

/-- The external Chia WASM SDK surface the handler calls: address derivation
from a (0x-stripped) public-key hex string, and BLS pairing verification of
(message, publicKey, signature).  Opaque to this repository. -/
structure ChiaSDK where
  deriveAddress : String → String
  blsVerify : String → String → String → Bool

/-- The outcome of `verifyBLSSignature`, one constructor per return site of the
source function (lines 48–124). -/
inductive SigCheck where
  | invalidSigFormat
  | invalidPubKeyFormat
  | emptyMessage
  | keySubstitution (expected derived : String)
  | blsInvalid
  | ok
deriving Repr, DecidableEq

/-- `verifyBLSSignature(message, signature, publicKey, expectedAddress)`:
hex-format gates, empty-message gate, key-to-address binding via
`deriveChiaAddressFromPublicKey`, then the pairing check. -/
def verifyBLSSignature (sdk : ChiaSDK) (message signature publicKey expectedAddress : String) :
    SigCheck :=
  let cleanSignature := strip0x signature
  let cleanPubKey := strip0x publicKey
  if !isHexOfLength 192 cleanSignature then .invalidSigFormat
  else if !isHexOfLength 96 cleanPubKey then .invalidPubKeyFormat
  else if message = "" then .emptyMessage
  else
    let derivedAddress := sdk.deriveAddress cleanPubKey
    if derivedAddress ≠ expectedAddress then .keySubstitution expectedAddress derivedAddress
    else if !sdk.blsVerify message cleanPubKey cleanSignature then .blsInvalid
    else .ok

/-- Whether the entry for nonce `n` is expired at `now` (used by
`cleanupExpiredNonces`): `now - timestamp > NONCE_EXPIRY_TIME`. -/
def nonceExpired (now : Int) (nonceTimestamps : List (String × Int)) (n : String) : Bool :=
  match mapLookup nonceTimestamps n with
  | some ts => now - ts > NONCE_EXPIRY_TIME
  | none => false

/-- `cleanupExpiredNonces`: delete every expired nonce from both `usedNonces`
and `nonceTimestamps`.  `verificationStorage` is untouched. -/
def cleanupExpiredNonces (now : Int) (st : ServerState) : ServerState :=
  { st with
    usedNonces := st.usedNonces.filter (fun n => !nonceExpired now st.nonceTimestamps n)
    nonceTimestamps := st.nonceTimestamps.filter (fun p => !(now - p.2 > NONCE_EXPIRY_TIME)) }

/-! ### The request handler -/

/-- Typed failure of a `POST` verification attempt, one constructor per early
`return res.status(...)` site of the handler's POST branch.  The spec's
taxonomy names map as: `cryptoUnavailable` = CryptoUnavailable (503),
`missingFields` = MissingFields, `invalidDomain` = InvalidDomain,
`replayDetected` = ReplayDetected, the two address-format constructors =
InvalidAddressFormat, `addressMismatch` = AddressMismatch, the two timestamp
constructors = StaleOrFutureTimestamp, `messageMismatch` = MessageMismatch,
and `signatureInvalid c` covers FormatError / KeySubstitution /
InvalidSignature according to `c`. -/
inductive VerifyError where
  | cryptoUnavailable
  | missingFields
  | invalidDomain (error : String)
  | replayDetected
  | invalidExpectedAddressFormat
  | invalidSigningAddressFormat
  | addressMismatch
  | timestampTooOld
  | timestampInFuture
  | messageMismatch
  | signatureInvalid (c : SigCheck)
deriving Repr, DecidableEq

/-- HTTP status code attached to each failure (503 for the crypto subsystem,
400 for every validation/crypto failure). -/
def VerifyError.status : VerifyError → Nat
  | .cryptoUnavailable => 503
  | _ => 400

/-- Outcome of the POST branch: an error response, or the 200 success body
`{success:true, verified:true, domain, address, verifiedAt}` (the echoed
`domain` is the raw request domain, line 378). -/
inductive PostResult where
  | error (e : VerifyError)
  | success (domain address : String) (verifiedAt : Int)
deriving Repr, DecidableEq

/-- The truthiness test of the required-fields gate (lines 283–286): a string
field is falsy iff empty, the numeric `timestamp` is falsy iff zero. -/
def someFieldMissing (req : VerificationRequest) : Bool :=
  req.domain == "" || req.expectedAddress == "" || req.message == ""
    || req.signature == "" || req.publicKey == "" || req.timestamp == 0
    || req.signingAddress == "" || req.nonce == ""

/-- The record built on the success path (lines 359–368); both `Date.now()`
calls of the success path are modelled by the single instant `now`. -/
def mkVerificationRecord (sanitizedDomain : String) (req : VerificationRequest) (now : Int) :
    VerificationRecord :=
  { domain := sanitizedDomain
    address := req.expectedAddress
    verified := true
    verifiedAt := now
    signature := req.signature
    publicKey := req.publicKey
    message := req.message
    nonce := req.nonce }

/-- The POST branch of `handler`.  `sdk = none` models a failed
`initializeChiaSDK()` (the 503 path); `now` is `Date.now()`.  Gate order is
exactly the source's: SDK init, nonce cleanup, field presence, domain
sanitation, nonce replay *check*, expected-address format, signing-address
format, address equality, staleness, futureness, message reconstruction,
nonce consumption, `verifyBLSSignature` (with nonce rollback on its failure),
then storing the record under the sanitized domain. -/
def handlePost (sdk : Option ChiaSDK) (now : Int) (req : VerificationRequest)
    (st : ServerState) : PostResult × ServerState :=
  match sdk with
  | none => (.error .cryptoUnavailable, st)
  | some sdk =>
    let st := cleanupExpiredNonces now st
    if someFieldMissing req then (.error .missingFields, st)
    else match sanitizeDomainName req.domain with
    | .invalid e => (.error (.invalidDomain e), st)
    | .valid sanitizedDomain =>
      if req.nonce ∈ st.usedNonces then (.error .replayDetected, st)
      else if !isValidChiaAddress req.expectedAddress then
        (.error .invalidExpectedAddressFormat, st)
      else if !isValidChiaAddress req.signingAddress then
        (.error .invalidSigningAddressFormat, st)
      else if req.signingAddress ≠ req.expectedAddress then (.error .addressMismatch, st)
      else if now - req.timestamp > maxAge then (.error .timestampTooOld, st)
      else if now - req.timestamp < -30000 then (.error .timestampInFuture, st)
      else if req.message ≠ createDomainOwnershipMessage sanitizedDomain req.timestamp req.nonce then
        (.error .messageMismatch, st)
      else
        let st := { st with
          usedNonces := setAdd st.usedNonces req.nonce
          nonceTimestamps := mapSet st.nonceTimestamps req.nonce now }
        match verifyBLSSignature sdk req.message req.signature req.publicKey req.expectedAddress with
        | .ok =>
          (.success req.domain req.expectedAddress now,
           { st with verificationStorage :=
               mapSet st.verificationStorage sanitizedDomain (mkVerificationRecord sanitizedDomain req now) })
        | c =>
          (.error (.signatureInvalid c),
           { st with
             usedNonces := setDelete st.usedNonces req.nonce
             nonceTimestamps := mapDelete st.nonceTimestamps req.nonce })

/-- The server state at the program point just after the nonce replay check of
the POST branch: between `cleanupExpiredNonces()` (line 278) and
`usedNonces.add(...)` (line 340) no statement of the handler mutates the
module state, so that intermediate state is exactly the cleaned-up input
state. -/
def stateAfterReplayGate (now : Int) (st : ServerState) : ServerState :=
  cleanupExpiredNonces now st

/-- Outcome of the GET branch (lines 391–420): the 200 body projects the found
record; 404 echoes the queried (raw) domain. -/
inductive GetResult where
  | badRequest (error : String)
  | found (r : VerificationRecord)
  | notFound (domain : String)
deriving Repr, DecidableEq

/-- The GET branch of `handler`: looks up the *raw* query string in storage
(no sanitation); reads only, never mutates state. -/
def handleGet (domain : String) (st : ServerState) : GetResult :=
  if domain = "" then .badRequest "Domain parameter is required"
  else match mapLookup st.verificationStorage domain with
    | some v => .found v
    | none => .notFound domain

/-- Outcome of the DELETE branch (lines 430–477): 400 on a missing/invalid
domain, 404 `{domain: sanitizedDomain, verified:false}` when no record exists,
200 `{success:true, domain: sanitizedDomain, verified:false}` after removal. -/
inductive DeleteResult where
  | badRequest (error : String)
  | notFound (domain : String)
  | removed (domain : String)
deriving Repr, DecidableEq

/-- The DELETE branch of `handler`: sanitizes the query domain, then deletes
the record under the sanitized key if present. -/
def handleDelete (domain : String) (st : ServerState) : DeleteResult × ServerState :=
  if domain = "" then (.badRequest "Domain parameter is required", st)
  else match sanitizeDomainName domain with
    | .invalid e => (.badRequest e, st)
    | .valid sanitizedDomain =>
      match mapLookup st.verificationStorage sanitizedDomain with
      | none => (.notFound sanitizedDomain, st)
      | some _ =>
        (.removed sanitizedDomain,
         { st with verificationStorage := mapDelete st.verificationStorage sanitizedDomain })

/-! ### Concrete fixtures used by witnesses and counterexamples -/

/-- A well-formed Chia address: `xch1` followed by 58 chars of `[a-z0-9]`. -/
def testAddr : String := "xch1" ++ String.mk (List.replicate 58 'q')

/-- A well-formed BLS signature encoding: 192 hex chars. -/
def testSig : String := String.mk (List.replicate 192 'a')

/-- A well-formed BLS public-key encoding: 96 hex chars. -/
def testPub : String := String.mk (List.replicate 96 'a')

/-- An SDK model that derives every key to `testAddr` and accepts every
signature: used to drive the handler down its success path. -/
def testSDK : ChiaSDK :=
  { deriveAddress := fun _ => testAddr, blsVerify := fun _ _ _ => true }

/-- An SDK model that derives every key to a *different* valid address. -/
def testSDKother : ChiaSDK :=
  { deriveAddress := fun _ => "xch1" ++ String.mk (List.replicate 58 'z')
    blsVerify := fun _ _ _ => true }

/-- The state at first process start: all three maps empty. -/
def emptyState : ServerState :=
  { verificationStorage := [], usedNonces := [], nonceTimestamps := [] }

/-- A request for domain `alice` that passes every gate under `testSDK`. -/
def reqAlice : VerificationRequest :=
  { domain := "alice"
    expectedAddress := testAddr
    message := createDomainOwnershipMessage "alice" 1000 "n1"
    signature := testSig
    publicKey := testPub
    timestamp := 1000
    signingAddress := testAddr
    nonce := "n1" }


/-! ### Helper lemmas on the JS `Map` / `Set` models -/

theorem mapLookup_append (l1 l2 : List (String × α)) (k : String) :
    mapLookup (l1 ++ l2) k
      = match mapLookup l1 k with
        | some v => some v
        | none => mapLookup l2 k := by
  induction l1 with
  | nil => simp [mapLookup]
  | cons p t ih =>
    by_cases hpk : p.1 = k <;> simp [mapLookup, hpk, ih]

theorem mapLookup_replace_ne (t : List (String × α)) (k k' : String) (v : α)
    (hk' : k' ≠ k) :
    mapLookup (t.map (fun q => if q.1 = k then (k, v) else q)) k' = mapLookup t k' := by
  induction t with
  | nil => simp [mapLookup]
  | cons p r ih =>
    by_cases hpk : p.1 = k
    · have h1 : ¬ k = k' := fun h => hk' h.symm
      simp [mapLookup, hpk, h1, ih]
    · by_cases hpk' : p.1 = k' <;> simp [mapLookup, hpk, hpk', hk', ih]

theorem lookup_mapSet (m : List (String × α)) (k k' : String) (v : α) :
    mapLookup (mapSet m k v) k' = if k' = k then some v else mapLookup m k' := by
  unfold mapSet
  by_cases hk : (mapLookup m k).isSome
  · rw [if_pos hk]
    by_cases hk' : k' = k
    · subst hk'
      rw [if_pos rfl]
      induction m with
      | nil => simp [mapLookup] at hk
      | cons p t ih =>
        by_cases hpk : p.1 = k'
        · simp [mapLookup, hpk]
        · have ht : (mapLookup t k').isSome := by
            simpa [mapLookup, hpk] using hk
          simp [mapLookup, hpk, ih ht]
    · rw [if_neg hk']
      exact mapLookup_replace_ne m k k' v hk'
  · rw [if_neg hk, mapLookup_append]
    have hnone : mapLookup m k = none := by
      cases h : mapLookup m k
      · rfl
      · rw [h] at hk; simp at hk
    by_cases hk' : k' = k
    · subst hk'
      rw [hnone]
      simp [mapLookup]
    · have h1 : ¬ k = k' := fun h => hk' h.symm
      cases h : mapLookup m k' <;> simp [h, mapLookup, h1, hk']

theorem mapDelete_nil (k : String) : mapDelete ([] : List (String × α)) k = [] := rfl

theorem mapDelete_cons (p : String × α) (t : List (String × α)) (k : String) :
    mapDelete (p :: t) k = if p.1 = k then mapDelete t k else p :: mapDelete t k := by
  unfold mapDelete
  by_cases hpk : p.1 = k <;> simp [List.filter_cons, hpk]

theorem lookup_mapDelete_self (m : List (String × α)) (k : String) :
    mapLookup (mapDelete m k) k = none := by
  induction m with
  | nil => rfl
  | cons p t ih =>
    rw [mapDelete_cons]
    by_cases hpk : p.1 = k
    · rw [if_pos hpk]; exact ih
    · rw [if_neg hpk]; simp [mapLookup, hpk, ih]

theorem lookup_mapDelete_ne (m : List (String × α)) (k k' : String) (h : k' ≠ k) :
    mapLookup (mapDelete m k) k' = mapLookup m k' := by
  induction m with
  | nil => rfl
  | cons p t ih =>
    rw [mapDelete_cons]
    by_cases hpk : p.1 = k
    · have h1 : ¬ p.1 = k' := fun he => h (he ▸ hpk)
      rw [if_pos hpk, ih]
      simp [mapLookup, h1]
    · rw [if_neg hpk]
      by_cases hpk' : p.1 = k' <;> simp [mapLookup, hpk', ih]

theorem mem_setAdd_self (s : List String) (x : String) : x ∈ setAdd s x := by
  unfold setAdd
  split
  · assumption
  · simp

theorem filter_ne_of_not_mem (s : List String) (x : String) (h : x ∉ s) :
    s.filter (· ≠ x) = s := by
  induction s with
  | nil => rfl
  | cons a t ih =>
    simp only [List.mem_cons, not_or] at h
    have hax : (decide (a ≠ x)) = true := decide_eq_true (fun he => h.1 he.symm)
    rw [List.filter_cons, if_pos hax, ih h.2]

theorem setDelete_setAdd_of_not_mem (s : List String) (x : String) (h : x ∉ s) :
    setDelete (setAdd s x) x = s := by
  unfold setAdd setDelete
  rw [if_neg h, List.filter_append]
  have h2 : [x].filter (· ≠ x) = [] := by simp
  rw [filter_ne_of_not_mem s x h, h2, List.append_nil]

theorem mem_of_mem_mapSet (m : List (String × α)) (k : String) (v : α)
    (p : String × α) (hp : p ∈ mapSet m k v) : p = (k, v) ∨ p ∈ m := by
  unfold mapSet at hp
  split at hp
  · rcases List.mem_map.mp hp with ⟨q, hq, hqe⟩
    by_cases hqk : q.1 = k
    · rw [if_pos hqk] at hqe
      exact Or.inl hqe.symm
    · rw [if_neg hqk] at hqe
      exact Or.inr (hqe ▸ hq)
  · rcases List.mem_append.mp hp with h | h
    · exact Or.inr h
    · exact Or.inl (by simpa using h)

theorem mem_of_mem_mapDelete (m : List (String × α)) (k : String)
    (p : String × α) (hp : p ∈ mapDelete m k) : p ∈ m :=
  List.mem_of_mem_filter hp

theorem cleanup_storage (now : Int) (st : ServerState) :
    (cleanupExpiredNonces now st).verificationStorage = st.verificationStorage := rfl

/-- Spelled-out success state of the POST branch: cleanup, then nonce
consumption, then the storage upsert under the sanitized domain. -/
def successState (now : Int) (req : VerificationRequest) (st : ServerState)
    (s : String) : ServerState :=
  { verificationStorage :=
      mapSet (cleanupExpiredNonces now st).verificationStorage s
        (mkVerificationRecord s req now)
    usedNonces := setAdd (cleanupExpiredNonces now st).usedNonces req.nonce
    nonceTimestamps := mapSet (cleanupExpiredNonces now st).nonceTimestamps req.nonce now }

theorem handlePost_success_inv (sdk : ChiaSDK) (now : Int) (req : VerificationRequest)
    (st : ServerState) (d a : String) (t : Int) (st' : ServerState)
    (h : handlePost (some sdk) now req st = (.success d a t, st')) :
    ∃ s, sanitizeDomainName req.domain = .valid s ∧
      someFieldMissing req = false ∧
      d = req.domain ∧ a = req.expectedAddress ∧ t = now ∧
      req.nonce ∉ (cleanupExpiredNonces now st).usedNonces ∧
      req.message = createDomainOwnershipMessage s req.timestamp req.nonce ∧
      verifyBLSSignature sdk req.message req.signature req.publicKey req.expectedAddress
        = .ok ∧
      st' = successState now req st s := by
  simp only [handlePost] at h
  split at h
  · simp at h
  · split at h
    · simp at h
    · split at h
      · simp at h
      · split at h
        · simp at h
        · split at h
          · simp at h
          · split at h
            · simp at h
            · split at h
              · simp at h
              · split at h
                · simp at h
                · split at h
                  · simp at h
                  · split at h
                    · rename_i hfields s hsan hnonce haddr1 haddr2 haddreq hold hfut hmsg hok
                      rename_i hnf hscr
                      have hms : someFieldMissing req = false := by
                        cases hbv : someFieldMissing req
                        · rfl
                        · exact absurd hbv hnf
                      have h1 := congrArg Prod.fst h
                      have h2 := congrArg Prod.snd h
                      simp only at h1 h2
                      injection h1 with hd ha ht
                      exact ⟨hfields, s, hms, hd.symm, ha.symm, ht.symm, hsan,
                        not_not.mp hfut, hok, h2.symm⟩
                    · simp at h

theorem verifyBLSSignature_ok_inv (sdk : ChiaSDK) (m s p a : String)
    (h : verifyBLSSignature sdk m s p a = .ok) :
    sdk.deriveAddress (strip0x p) = a
    ∧ sdk.blsVerify m (strip0x p) (strip0x s) = true := by
  simp only [verifyBLSSignature] at h
  split at h
  · simp at h
  · split at h
    · simp at h
    · split at h
      · simp at h
      · split at h
        · simp at h
        · split at h
          · simp at h
          · rename_i hsig hpub hmsg hderive hbls
            exact ⟨not_not.mp hderive, by simpa using hbls⟩

theorem createDomainOwnershipMessage_ne_empty (d : String) (t : Int) (n : String) :
    createDomainOwnershipMessage d t n ≠ "" := by
  unfold createDomainOwnershipMessage
  intro h
  have hlen := congrArg String.length h
  have h27 : ("Verify ownership of domain " : String).length = 27 := rfl
  have h0 : ("" : String).length = 0 := rfl
  simp only [String.length_append, h27, h0] at hlen
  omega

theorem sanitize_valid_inv (domain s : String)
    (h : sanitizeDomainName domain = .valid s) :
    s = String.mk (domain.data.filter isDomainChar) ∧ s ≠ "" ∧ domain ≠ "" := by
  simp only [sanitizeDomainName] at h
  split at h
  · simp at h
  · rename_i hdom
    split at h
    · simp at h
    · split at h
      · simp at h
      · split at h
        · simp at h
        · rename_i hlen0 hlen100 hchars
          injection h with hs
          refine ⟨hs.symm, ?_, hdom⟩
          intro he
          rw [hs, he] at hlen0
          exact hlen0 rfl

theorem sanitized_all_domainChars (domain s : String)
    (h : sanitizeDomainName domain = .valid s) :
    s.data.all isDomainChar = true := by
  obtain ⟨hs, -, -⟩ := sanitize_valid_inv domain s h
  subst hs
  simp only [String.mk]
  exact List.all_eq_true.mpr (fun c hc => (List.mem_filter.mp hc).2)

theorem mapLookup_eq_none_of_all_keys (m : List (String × α)) (k : String)
    (pred : String → Bool)
    (hkeys : ∀ p ∈ m, pred p.1 = true) (hk : pred k = false) :
    mapLookup m k = none := by
  induction m with
  | nil => rfl
  | cons p t ih =>
    have hp : pred p.1 = true := hkeys p (List.mem_cons_self p t)
    have hne : ¬ p.1 = k := fun he => by rw [he, hk] at hp; exact Bool.false_ne_true hp
    simp only [mapLookup, if_neg hne]
    exact ih (fun q hq => hkeys q (List.mem_cons_of_mem p hq))

theorem keys_mapSet_isSome (m : List (String × α)) (k : String) (v : α)
    (h : (mapLookup m k).isSome) :
    (mapSet m k v).map Prod.fst = m.map Prod.fst := by
  unfold mapSet
  rw [if_pos h, List.map_map]
  apply List.map_congr_left
  intro q hq
  by_cases hqk : q.1 = k <;> simp [hqk]

theorem mapLookup_none_iff_not_key (m : List (String × α)) (k : String) :
    mapLookup m k = none ↔ k ∉ m.map Prod.fst := by
  induction m with
  | nil => simp [mapLookup]
  | cons p t ih =>
    simp only [mapLookup, List.map_cons, List.mem_cons]
    by_cases hpk : p.1 = k
    · simp [hpk]
    · rw [if_neg hpk, ih]
      constructor
      · intro h1
        rintro (he | hm)
        · exact hpk he.symm
        · exact h1 hm
      · intro h1 hm
        exact h1 (Or.inr hm)

theorem nodup_keys_mapSet (m : List (String × α)) (k : String) (v : α)
    (h : (m.map Prod.fst).Nodup) : ((mapSet m k v).map Prod.fst).Nodup := by
  by_cases hk : (mapLookup m k).isSome
  · rw [keys_mapSet_isSome m k v hk]
    exact h
  · have hnone : mapLookup m k = none := by
      cases he : mapLookup m k
      · rfl
      · rw [he] at hk; simp at hk
    have hnotkey : k ∉ m.map Prod.fst := (mapLookup_none_iff_not_key m k).mp hnone
    unfold mapSet
    rw [if_neg hk, List.map_append]
    simp [List.nodup_append, h, hnotkey]

/-! ### Claim theorems -/

/-- C6: the challenge message builder is a pure deterministic function of
(domain, timestamp, nonce): it returns exactly the string
`Verify ownership of domain <domain> at <timestamp> with nonce <nonce>`,
and the server-side builder (API handler) and the client-side builder
(`lib/domain-ownership-verification.ts`) produce identical output for
identical inputs. -/
theorem message_builder_exact_and_shared :
    (∀ (domain : String) (timestamp : Int) (nonce : String),
        createDomainOwnershipMessage domain timestamp nonce
          = "Verify ownership of domain " ++ domain ++ " at " ++ toString timestamp
              ++ " with nonce " ++ nonce)
    ∧ (∀ (domain : String) (timestamp : Int) (nonce : String),
        ClientLib.createDomainOwnershipMessage domain timestamp nonce
          = createDomainOwnershipMessage domain timestamp nonce) :=
  ⟨fun _ _ _ => rfl, fun _ _ _ => rfl⟩

/-- C8: when the crypto subsystem failed to initialize (`sdk = none`), every
POST request is rejected with status 503 before any gate runs: the state —
storage and nonce registry alike — is returned entirely unchanged, and no
success is ever reported. -/
theorem cryptoUnavailable_blocks_post (now : Int) (req : VerificationRequest)
    (st : ServerState) :
    handlePost none now req st = (.error .cryptoUnavailable, st)
    ∧ VerifyError.cryptoUnavailable.status = 503 :=
  ⟨rfl, rfl⟩

/-- C10: the field-presence gate tests JS truthiness, not presence: a request
whose `timestamp` equals 0, or any of whose string fields is the empty string,
is rejected with the MissingFields error (status 400). -/
theorem truthiness_field_gate (sdk : ChiaSDK) (now : Int) (req : VerificationRequest)
    (st : ServerState)
    (h : req.timestamp = 0 ∨ req.domain = "" ∨ req.expectedAddress = ""
      ∨ req.message = "" ∨ req.signature = "" ∨ req.publicKey = ""
      ∨ req.signingAddress = "" ∨ req.nonce = "") :
    handlePost (some sdk) now req st
      = (.error .missingFields, cleanupExpiredNonces now st)
    ∧ VerifyError.missingFields.status = 400 := by
  have hm : someFieldMissing req = true := by
    unfold someFieldMissing
    rcases h with h | h | h | h | h | h | h | h <;> simp [h]
  refine ⟨?_, rfl⟩
  simp [handlePost, hm]

/-- A request whose `timestamp` field is present but equal to `0`. -/
def reqZeroTs : VerificationRequest := { reqAlice with timestamp := 0 }

/-- Witness for C10: the concrete request `reqZeroTs` (timestamp present and
zero, all string fields non-empty) is rejected as MissingFields. -/
theorem truthiness_field_gate_witness :
    handlePost (some testSDK) 1000 reqZeroTs emptyState
      = (.error .missingFields, cleanupExpiredNonces 1000 emptyState)
    ∧ VerifyError.missingFields.status = 400 :=
  truthiness_field_gate testSDK 1000 reqZeroTs emptyState (Or.inl rfl)

/-- C7: revocation is idempotent at the DELETE boundary: with a valid domain,
if no record is stored under the sanitized key the call returns NotFound and
leaves the state unchanged; if a record exists the call removes it and returns
the 200 `removed` result echoing the sanitized domain with `verified:false`;
and a second identical call then returns NotFound without touching the state. -/
theorem revoke_idempotent (domain : String) (st : ServerState) (s : String)
    (hsan : sanitizeDomainName domain = .valid s) :
    (mapLookup st.verificationStorage s = none →
      handleDelete domain st = (.notFound s, st))
    ∧ (∀ r, mapLookup st.verificationStorage s = some r →
        handleDelete domain st
          = (.removed s,
             { st with verificationStorage := mapDelete st.verificationStorage s })
        ∧ handleDelete domain
            { st with verificationStorage := mapDelete st.verificationStorage s }
          = (.notFound s,
             { st with verificationStorage := mapDelete st.verificationStorage s })) := by
  obtain ⟨-, -, hdom⟩ := sanitize_valid_inv domain s hsan
  constructor
  · intro hnone
    simp [handleDelete, hdom, hsan, hnone]
  · intro r hr
    constructor
    · simp [handleDelete, hdom, hsan, hr]
    · have hnone2 : mapLookup (mapDelete st.verificationStorage s) s = none :=
        lookup_mapDelete_self _ _
      simp [handleDelete, hdom, hsan, hnone2]

/-- A stored record for domain `alice`, as the success path would create it. -/
def recAlice : VerificationRecord := mkVerificationRecord "alice" reqAlice 1000

/-- A server state holding exactly the `alice` record. -/
def stAlice : ServerState :=
  { verificationStorage := [("alice", recAlice)], usedNonces := ["n1"],
    nonceTimestamps := [("n1", 1000)] }

set_option maxRecDepth 8000 in
/-- Witness for C7: deleting `alice` from a state holding its record removes
it and returns `removed`; deleting again returns NotFound and changes
nothing. -/
theorem revoke_idempotent_witness :
    handleDelete "alice" stAlice
      = (.removed "alice",
         { stAlice with verificationStorage := mapDelete stAlice.verificationStorage "alice" })
    ∧ handleDelete "alice"
        { stAlice with verificationStorage := mapDelete stAlice.verificationStorage "alice" }
      = (.notFound "alice",
         { stAlice with verificationStorage := mapDelete stAlice.verificationStorage "alice" }) :=
  (revoke_idempotent "alice" stAlice "alice" (by decide)).2 recAlice (by decide)

/-- C4: once a request has passed the field, domain, nonce and address gates,
the freshness gate rejects with the `timestampTooOld` error exactly when
`now - timestamp` exceeds 2 minutes (`maxAge = 120000` ms) and with the
`timestampInFuture` error exactly when `now - timestamp` is below −30000 ms
(together the spec's StaleOrFutureTimestamp); in particular the boundary
values (exactly 2 minutes old, exactly 30 seconds in the future) pass the
gate. -/
theorem freshness_gate (sdk : ChiaSDK) (now : Int) (req : VerificationRequest)
    (st : ServerState) (s : String)
    (hf : someFieldMissing req = false)
    (hsan : sanitizeDomainName req.domain = .valid s)
    (hnonce : req.nonce ∉ (cleanupExpiredNonces now st).usedNonces)
    (hexp : isValidChiaAddress req.expectedAddress = true)
    (hsig : isValidChiaAddress req.signingAddress = true)
    (heq : req.signingAddress = req.expectedAddress) :
    ((handlePost (some sdk) now req st).1 = .error .timestampTooOld
        ↔ now - req.timestamp > maxAge)
    ∧ ((handlePost (some sdk) now req st).1 = .error .timestampInFuture
        ↔ now - req.timestamp < -30000)
    ∧ maxAge = 120000 := by
  have hMA : maxAge = 120000 := rfl
  by_cases h1 : now - req.timestamp > maxAge
  · have hres : (handlePost (some sdk) now req st).1 = .error .timestampTooOld := by
      simp [handlePost, hf, hsan, hnonce, hexp, hsig, heq, h1]
    have hne : (handlePost (some sdk) now req st).1 ≠ .error .timestampInFuture := by
      rw [hres]; simp
    have hnot2 : ¬ now - req.timestamp < -30000 := by omega
    exact ⟨⟨fun _ => h1, fun _ => hres⟩,
           ⟨fun hc => absurd hc hne, fun hc => absurd hc hnot2⟩, rfl⟩
  · by_cases h2 : now - req.timestamp < -30000
    · have hres : (handlePost (some sdk) now req st).1 = .error .timestampInFuture := by
        simp [handlePost, hf, hsan, hnonce, hexp, hsig, heq, h1, h2]
      have hne : (handlePost (some sdk) now req st).1 ≠ .error .timestampTooOld := by
        rw [hres]; simp
      exact ⟨⟨fun hc => absurd hc hne, fun hc => absurd hc h1⟩,
             ⟨fun _ => h2, fun _ => hres⟩, rfl⟩
    · have hres : (handlePost (some sdk) now req st).1 ≠ .error .timestampTooOld
          ∧ (handlePost (some sdk) now req st).1 ≠ .error .timestampInFuture := by
        simp only [handlePost]
        simp [hf, hsan, hnonce, hexp, hsig, heq, h1, h2]
        split <;> try split
        all_goals constructor <;> simp
      exact ⟨⟨fun hc => absurd hc hres.1, fun hc => absurd hc h1⟩,
             ⟨fun hc => absurd hc hres.2, fun hc => absurd hc h2⟩, rfl⟩

set_option maxRecDepth 8000 in
/-- Witness for C4: at `now = 200000` the request `reqAlice` (timestamp 1000)
is 199000 ms old, and the freshness characterization applies concretely. -/
theorem freshness_gate_witness :
    ((handlePost (some testSDK) 200000 reqAlice emptyState).1 = .error .timestampTooOld
        ↔ 200000 - reqAlice.timestamp > maxAge)
    ∧ ((handlePost (some testSDK) 200000 reqAlice emptyState).1 = .error .timestampInFuture
        ↔ 200000 - reqAlice.timestamp < -30000)
    ∧ maxAge = 120000 :=
  freshness_gate testSDK 200000 reqAlice emptyState "alice" (by decide) (by decide)
    (by decide) (by decide) (by decide) (by decide)

/-- A request identical to `reqAlice` except that its expected and signing
addresses are malformed, so it passes the replay gate and then fails the
address-format gate. -/
def reqBadAddr : VerificationRequest :=
  { reqAlice with expectedAddress := "invalid", signingAddress := "invalid" }

set_option maxRecDepth 8000 in
/-- Counterexample for C1: the claim says the replay gate (gate 3) is an
atomic check-and-insert, so that after gate 3 succeeds the nonce is in the
consumed set and a failure at any later gate removes it again.  On this
concrete input gate 3 succeeds and the *next* gate (address format) fails,
yet the state at the program point just after the replay gate — no statement
between the cleanup and `usedNonces.add` mutates the module state — never
contained the nonce: the replay gate only checks membership and inserts
nothing, so there is no consumed nonce to roll back. -/
theorem nonce_gate_counterexample :
    handlePost (some testSDK) 1000 reqBadAddr emptyState
      = (.error .invalidExpectedAddressFormat, stateAfterReplayGate 1000 emptyState)
    ∧ reqBadAddr.nonce ∉ (stateAfterReplayGate 1000 emptyState).usedNonces := by
  decide

/-- The failure constructors belonging to gates that run strictly after the
nonce replay check in the POST branch. -/
def VerifyError.isAfterReplayGate : VerifyError → Bool
  | .invalidExpectedAddressFormat => true
  | .invalidSigningAddressFormat => true
  | .addressMismatch => true
  | .timestampTooOld => true
  | .timestampInFuture => true
  | .messageMismatch => true
  | .signatureInvalid _ => true
  | _ => false

/-- C1 (amended): the gates run in the spec's order with the nonce replay
gate third — a membership check only — before the address-format,
address-equality, freshness and message-reconstruction gates, and every gate
short-circuits: (i) with fields present and the domain valid, a consumed
nonce is rejected as ReplayDetected regardless of the later gates; (ii) the
nonce is inserted into the consumed set only after the message-reconstruction
gate passes and is removed again if the signature gate fails, so on any
rejection at a gate after the replay check the returned consumed-nonce set
equals the post-cleanup one and does not contain the request's nonce. -/
theorem nonce_gate_amended (sdk : ChiaSDK) (now : Int) (req : VerificationRequest)
    (st : ServerState) :
    (∀ s, someFieldMissing req = false → sanitizeDomainName req.domain = .valid s →
      req.nonce ∈ (cleanupExpiredNonces now st).usedNonces →
      handlePost (some sdk) now req st
        = (.error .replayDetected, cleanupExpiredNonces now st))
    ∧ (∀ e st', handlePost (some sdk) now req st = (.error e, st') →
        e.isAfterReplayGate = true →
        st'.usedNonces = (cleanupExpiredNonces now st).usedNonces
        ∧ req.nonce ∉ st'.usedNonces) := by
  constructor
  · intro s hf hsan hmem
    simp [handlePost, hf, hsan, hmem]
  · intro e st' h he
    simp only [handlePost] at h
    split at h
    · have h1 := congrArg Prod.fst h
      simp only at h1
      injection h1 with hK
      rw [← hK] at he
      simp [VerifyError.isAfterReplayGate] at he
    · split at h
      · have h1 := congrArg Prod.fst h
        simp only at h1
        injection h1 with hK
        rw [← hK] at he
        simp [VerifyError.isAfterReplayGate] at he
      · split at h
        · have h1 := congrArg Prod.fst h
          simp only at h1
          injection h1 with hK
          rw [← hK] at he
          simp [VerifyError.isAfterReplayGate] at he
        · rename_i hnmem
          split at h
          · have h2 := congrArg Prod.snd h
            simp only at h2
            rw [← h2]
            exact ⟨rfl, hnmem⟩
          · split at h
            · have h2 := congrArg Prod.snd h
              simp only at h2
              rw [← h2]
              exact ⟨rfl, hnmem⟩
            · split at h
              · have h2 := congrArg Prod.snd h
                simp only at h2
                rw [← h2]
                exact ⟨rfl, hnmem⟩
              · split at h
                · have h2 := congrArg Prod.snd h
                  simp only at h2
                  rw [← h2]
                  exact ⟨rfl, hnmem⟩
                · split at h
                  · have h2 := congrArg Prod.snd h
                    simp only at h2
                    rw [← h2]
                    exact ⟨rfl, hnmem⟩
                  · split at h
                    · have h2 := congrArg Prod.snd h
                      simp only at h2
                      rw [← h2]
                      exact ⟨rfl, hnmem⟩
                    · split at h
                      · simp at h
                      · have h2 := congrArg Prod.snd h
                        simp only at h2
                        rw [← h2]
                        refine ⟨?_, ?_⟩ <;>
                          simp [setDelete_setAdd_of_not_mem _ _ hnmem, hnmem]

/-- A state in which the nonce `n1` is already consumed (100 ms ago). -/
def stUsedNonce : ServerState :=
  { emptyState with usedNonces := ["n1"], nonceTimestamps := [("n1", 900)] }

set_option maxRecDepth 8000 in
/-- Witness for the amended C1: (i) with nonce `n1` already consumed,
`reqAlice` is rejected as ReplayDetected even though all later gates would
pass; (ii) `reqBadAddr` fails the address-format gate (after the replay
check) and the returned consumed-nonce set is the post-cleanup one, without
the request's nonce. -/
theorem nonce_gate_amended_witness :
    handlePost (some testSDK) 1000 reqAlice stUsedNonce
      = (.error .replayDetected, cleanupExpiredNonces 1000 stUsedNonce)
    ∧ (emptyState.usedNonces = (cleanupExpiredNonces 1000 emptyState).usedNonces
       ∧ reqBadAddr.nonce ∉ emptyState.usedNonces) :=
  ⟨(nonce_gate_amended testSDK 1000 reqAlice stUsedNonce).1 "alice"
      (by decide) (by decide) (by decide),
   (nonce_gate_amended testSDK 1000 reqBadAddr emptyState).2
      .invalidExpectedAddressFormat emptyState (by decide) (by decide)⟩

/-- C2: if a verify call with a given nonce succeeded, then a second call
with the identical nonce within the 5-minute nonce-expiry window — whatever
its other fields, as long as it reaches the replay gate (fields present,
domain valid), and even under an SDK for which it would otherwise verify —
is rejected with ReplayDetected, and the stored records are unchanged. -/
theorem replay_second_call_rejected (sdk1 sdk2 : ChiaSDK) (now1 now2 : Int)
    (req1 req2 : VerificationRequest) (st0 st1 : ServerState)
    (d a : String) (t : Int)
    (h1 : handlePost (some sdk1) now1 req1 st0 = (.success d a t, st1))
    (hn : req2.nonce = req1.nonce)
    (hwin : now2 - now1 ≤ NONCE_EXPIRY_TIME)
    (hf : someFieldMissing req2 = false)
    (hs : ∃ s, sanitizeDomainName req2.domain = .valid s) :
    handlePost (some sdk2) now2 req2 st1
      = (.error .replayDetected, cleanupExpiredNonces now2 st1)
    ∧ (handlePost (some sdk2) now2 req2 st1).2.verificationStorage
        = st1.verificationStorage := by
  obtain ⟨s0, hsan0, hfld, hd, ha, ht, hnn, hmsg, hok, hst1⟩ :=
    handlePost_success_inv _ _ _ _ _ _ _ _ h1
  subst hst1
  have hlook : mapLookup (successState now1 req1 st0 s0).nonceTimestamps req1.nonce
      = some now1 := by
    show mapLookup
        (mapSet (cleanupExpiredNonces now1 st0).nonceTimestamps req1.nonce now1)
        req1.nonce = some now1
    rw [lookup_mapSet]
    simp
  have hexp : nonceExpired now2 (successState now1 req1 st0 s0).nonceTimestamps req1.nonce
      = false := by
    unfold nonceExpired
    simp only [hlook]
    simp only [decide_eq_false_iff_not]
    omega
  have hmem : req2.nonce
      ∈ (cleanupExpiredNonces now2 (successState now1 req1 st0 s0)).usedNonces := by
    rw [hn]
    show req1.nonce ∈ List.filter _
      (setAdd (cleanupExpiredNonces now1 st0).usedNonces req1.nonce)
    refine List.mem_filter.mpr ⟨mem_setAdd_self _ _, ?_⟩
    simp [hexp]
  obtain ⟨s2, hsan2⟩ := hs
  have hres : handlePost (some sdk2) now2 req2 (successState now1 req1 st0 s0)
      = (.error .replayDetected,
         cleanupExpiredNonces now2 (successState now1 req1 st0 s0)) := by
    simp [handlePost, hf, hsan2, hmem]
  exact ⟨hres, by rw [hres]; rfl⟩

/-- The state after the first successful verification of `reqAlice`. -/
def stAfterAlice : ServerState := successState 1000 reqAlice emptyState "alice"

set_option maxRecDepth 8000 in
/-- Witness for C2: after `reqAlice` verifies successfully at `now = 1000`,
resubmitting the identical (validly signed) request one second later is
rejected as ReplayDetected and the storage is untouched. -/
theorem replay_second_call_rejected_witness :
    handlePost (some testSDK) 2000 reqAlice stAfterAlice
      = (.error .replayDetected, cleanupExpiredNonces 2000 stAfterAlice)
    ∧ (handlePost (some testSDK) 2000 reqAlice stAfterAlice).2.verificationStorage
        = stAfterAlice.verificationStorage :=
  replay_second_call_rejected testSDK testSDK 1000 2000 reqAlice reqAlice emptyState
    stAfterAlice "alice" testAddr 1000 (by decide) rfl (by decide) (by decide)
    ⟨"alice", by decide⟩

/-- C3: a verify request that passes the field, domain, nonce, address,
freshness, message and key/signature-format gates but whose public key
derives to an address different from `expectedAddress` fails with the
KeySubstitution error, and the verification store is left unchanged — no
record is persisted for the attempt. -/
theorem key_substitution_rejected (sdk : ChiaSDK) (now : Int)
    (req : VerificationRequest) (st : ServerState) (s : String)
    (hf : someFieldMissing req = false)
    (hsan : sanitizeDomainName req.domain = .valid s)
    (hnonce : req.nonce ∉ (cleanupExpiredNonces now st).usedNonces)
    (hexp : isValidChiaAddress req.expectedAddress = true)
    (hsig : isValidChiaAddress req.signingAddress = true)
    (heq : req.signingAddress = req.expectedAddress)
    (hold : ¬ now - req.timestamp > maxAge)
    (hfut : ¬ now - req.timestamp < -30000)
    (hmsg : req.message = createDomainOwnershipMessage s req.timestamp req.nonce)
    (hsigfmt : isHexOfLength 192 (strip0x req.signature) = true)
    (hpubfmt : isHexOfLength 96 (strip0x req.publicKey) = true)
    (hderive : sdk.deriveAddress (strip0x req.publicKey) ≠ req.expectedAddress) :
    (handlePost (some sdk) now req st).1
      = .error (.signatureInvalid
          (.keySubstitution req.expectedAddress
            (sdk.deriveAddress (strip0x req.publicKey))))
    ∧ (handlePost (some sdk) now req st).2.verificationStorage
        = st.verificationStorage := by
  have hne : req.message ≠ "" := by
    rw [hmsg]
    exact createDomainOwnershipMessage_ne_empty _ _ _
  have hbls : verifyBLSSignature sdk req.message req.signature req.publicKey
      req.expectedAddress
      = .keySubstitution req.expectedAddress (sdk.deriveAddress (strip0x req.publicKey)) := by
    simp [verifyBLSSignature, hsigfmt, hpubfmt, hne, hderive]
  have hmsgif : ¬ (req.message ≠ createDomainOwnershipMessage s req.timestamp req.nonce) :=
    fun hc => hc hmsg
  constructor
  · simp [handlePost, hf, hsan, hnonce, hexp, hsig, heq, hold, hfut, hmsgif, hbls]
  · simp [handlePost, hf, hsan, hnonce, hexp, hsig, heq, hold, hfut, hmsgif, hbls,
      cleanup_storage]

set_option maxRecDepth 8000 in
/-- Witness for C3: under `testSDKother` — which derives every key to an
address different from `reqAlice.expectedAddress` — the otherwise fully valid
`reqAlice` is rejected as a key substitution and nothing is stored. -/
theorem key_substitution_rejected_witness :
    (handlePost (some testSDKother) 1000 reqAlice emptyState).1
      = .error (.signatureInvalid
          (.keySubstitution reqAlice.expectedAddress
            (testSDKother.deriveAddress (strip0x reqAlice.publicKey))))
    ∧ (handlePost (some testSDKother) 1000 reqAlice emptyState).2.verificationStorage
        = emptyState.verificationStorage :=
  key_substitution_rejected testSDKother 1000 reqAlice emptyState "alice"
    (by decide) (by decide) (by decide) (by decide) (by decide) (by decide)
    (by decide) (by decide) (by decide) (by decide) (by decide) (by decide)

/-- C5: the verification store holds at most one record per domain key (the
association has no duplicate keys, and a new successful verification for the
same domain overwrites the old record); every record a successful POST leaves
behind has `verified = true`, and a record is written only when the BLS
verification for that attempt returned valid.  Starting from a store whose
records all have `verified = true`, this invariant is preserved. -/
theorem store_invariant (sdk : ChiaSDK) (now : Int) (req : VerificationRequest)
    (st : ServerState) (d a : String) (t : Int) (st' : ServerState)
    (hinv : ∀ p ∈ st.verificationStorage, p.2.verified = true)
    (h : handlePost (some sdk) now req st = (.success d a t, st')) :
    (∀ p ∈ st'.verificationStorage, p.2.verified = true)
    ∧ (∀ s, sanitizeDomainName req.domain = .valid s →
        mapLookup st'.verificationStorage s = some (mkVerificationRecord s req now))
    ∧ sdk.blsVerify req.message (strip0x req.publicKey) (strip0x req.signature) = true
    ∧ ((st.verificationStorage.map Prod.fst).Nodup
        → (st'.verificationStorage.map Prod.fst).Nodup) := by
  obtain ⟨s0, hsan0, hfld, hd, ha, ht, hnn, hmsg, hok, hst'⟩ :=
    handlePost_success_inv _ _ _ _ _ _ _ _ h
  subst hst'
  obtain ⟨-, hbls⟩ := verifyBLSSignature_ok_inv _ _ _ _ _ hok
  refine ⟨?_, ?_, hbls, ?_⟩
  · intro p hp
    rcases mem_of_mem_mapSet _ _ _ p hp with he | hm
    · rw [he]
      rfl
    · exact hinv p hm
  · intro s hs
    rw [hsan0] at hs
    injection hs with hss
    subst hss
    show mapLookup (mapSet (cleanupExpiredNonces now st).verificationStorage s0
        (mkVerificationRecord s0 req now)) s0 = _
    rw [lookup_mapSet]
    simp
  · intro hnd
    exact nodup_keys_mapSet _ _ _ hnd

set_option maxRecDepth 8000 in
/-- Witness for C5: after the concrete successful verification of `reqAlice`,
the store maps `alice` to the freshly built record (with `verified = true` by
construction) and the SDK's pairing check returned valid. -/
theorem store_invariant_witness :
    mapLookup stAfterAlice.verificationStorage "alice"
      = some (mkVerificationRecord "alice" reqAlice 1000)
    ∧ testSDK.blsVerify reqAlice.message (strip0x reqAlice.publicKey)
        (strip0x reqAlice.signature) = true := by
  obtain ⟨hall, hlook, hbls, hnd⟩ :=
    store_invariant testSDK 1000 reqAlice emptyState "alice" testAddr 1000 stAfterAlice
      (fun p hp => absurd hp (List.not_mem_nil p)) (by decide)
  exact ⟨hlook "alice" (by decide), hbls⟩

/-- C9: records are stored under the sanitized domain key while the POST
success response echoes the raw request domain and the GET branch looks up
the raw query string; hence for a successfully verified request whose raw
domain contains a character outside `[a-zA-Z0-9_-]` (against a store whose
keys are all sanitized), a GET with the raw domain returns 404 NotFound while
a GET with the sanitized domain returns the stored record. -/
theorem raw_vs_sanitized_lookup (sdk : ChiaSDK) (now : Int)
    (req : VerificationRequest) (st : ServerState) (d a : String) (t : Int)
    (st' : ServerState)
    (h : handlePost (some sdk) now req st = (.success d a t, st'))
    (hraw : req.domain.data.all isDomainChar = false)
    (hkeys : ∀ p ∈ st.verificationStorage, p.1.data.all isDomainChar = true) :
    d = req.domain
    ∧ handleGet req.domain st' = .notFound req.domain
    ∧ (∀ s, sanitizeDomainName req.domain = .valid s →
        handleGet s st' = .found (mkVerificationRecord s req now)) := by
  obtain ⟨s0, hsan0, hfld, hd, ha, ht, hnn, hmsg, hok, hst'⟩ :=
    handlePost_success_inv _ _ _ _ _ _ _ _ h
  subst hst'
  have hs0chars : s0.data.all isDomainChar = true := sanitized_all_domainChars _ _ hsan0
  obtain ⟨hs0eq, hs0ne, hdomne⟩ := sanitize_valid_inv _ _ hsan0
  have hnesan : req.domain ≠ s0 := by
    intro he
    rw [he, hs0chars] at hraw
    simp at hraw
  refine ⟨hd, ?_, ?_⟩
  · unfold handleGet
    rw [if_neg hdomne]
    have hl : mapLookup (successState now req st s0).verificationStorage req.domain
        = none := by
      show mapLookup (mapSet (cleanupExpiredNonces now st).verificationStorage s0
        (mkVerificationRecord s0 req now)) req.domain = none
      rw [lookup_mapSet, if_neg hnesan]
      exact mapLookup_eq_none_of_all_keys _ _ (fun k => k.data.all isDomainChar)
        (fun p hp => hkeys p hp) hraw
    rw [hl]
  · intro s hs
    rw [hsan0] at hs
    injection hs with hss
    subst hss
    unfold handleGet
    rw [if_neg hs0ne]
    have hl : mapLookup (successState now req st s0).verificationStorage s0
        = some (mkVerificationRecord s0 req now) := by
      show mapLookup (mapSet (cleanupExpiredNonces now st).verificationStorage s0
        (mkVerificationRecord s0 req now)) s0 = _
      rw [lookup_mapSet]
      simp
    rw [hl]

/-- A request identical to `reqAlice` except the raw domain is `alice!`,
which sanitizes to `alice`. -/
def reqAliceBang : VerificationRequest := { reqAlice with domain := "alice!" }

set_option maxRecDepth 8000 in
/-- Witness for C9: after `reqAliceBang` (raw domain `alice!`) verifies
successfully, GET with the raw domain returns NotFound while GET with the
sanitized domain returns the stored record. -/
theorem raw_vs_sanitized_lookup_witness :
    handleGet "alice!" (successState 1000 reqAliceBang emptyState "alice")
      = .notFound "alice!"
    ∧ handleGet "alice" (successState 1000 reqAliceBang emptyState "alice")
      = .found (mkVerificationRecord "alice" reqAliceBang 1000) := by
  obtain ⟨hd, hnf, hfound⟩ :=
    raw_vs_sanitized_lookup testSDK 1000 reqAliceBang emptyState "alice!" testAddr 1000
      (successState 1000 reqAliceBang emptyState "alice")
      (by decide) (by decide) (fun p hp => absurd hp (List.not_mem_nil p))
  exact ⟨hnf, hfound "alice" (by decide)⟩
